import Mathlib

/-!
# Verification of the SolanaChangeNumber counter program

Shallow embedding of the two Rust source files of the repository:

* `src/program-rust/src/instruction.rs` — the instruction decoder
  (`HelloInstruction::unpack`);
* `src/program-rust/src/lib.rs` — the state type (`GreetingAccount`),
  the borsh (de)serialization of the 4-byte little-endian counter region,
  and the entrypoint `process_instruction`.

Bytes are modelled as `Nat` (real inputs are in `[0,255]`; range
hypotheses are added where a statement needs them).  The `u32` counter
arithmetic of `lib.rs` lines 51-52 uses Rust's native `+=`/`-=`, whose
non-debug (release) semantics is two's-complement wrapping; the embedding
models that as arithmetic modulo `2^32` (debug builds panic instead of
wrapping; either way no `Overflow`/`Underflow` error value exists in the
code).  Stateful code is modelled by explicit state passing: the account
data region is a `List Nat` consumed and returned, and each invocation
additionally returns the trace of executed steps in source order, so that
statements about execution order ("X runs before Y", "Y never runs") are
expressible.
-/

namespace SolanaChangeNumber

/-- Errors actually produced by the source.  `unpack` only ever builds
`ProgramError::InvalidInstructionData`; the owner check in `lib.rs`
produces `ProgramError::IncorrectProgramId`; borsh (de)serialization
failures surface as `ProgramError::BorshIoError` (its message string is
irrelevant to control flow and not modelled). -/
inductive ProgramErr where
  | InvalidInstructionData
  | IncorrectProgramId
  | BorshIoError
  deriving DecidableEq, Repr

/-- The command type of `instruction.rs`: `Increment`, `Decrement`,
`Set(u32)`. -/
inductive HelloInstruction where
  | Increment
  | Decrement
  | Set (value : Nat)
  deriving DecidableEq, Repr

/-- Rust `slice::split_first`: `None` on the empty slice, otherwise the
first element and the remaining slice. -/
def split_first (l : List Nat) : Option (Nat × List Nat) :=
  match l with
  | [] => none
  | t :: rest => some (t, rest)

/-- Rust `rest[..4].try_into()` targeting `[u8; 4]`: succeeds exactly when
the slice has length 4, in which case it yields the four bytes. -/
def tryInto4 (l : List Nat) : Option (Nat × Nat × Nat × Nat) :=
  match l with
  | [a, b, c, d] => some (a, b, c, d)
  | _ => none

/-- Rust `u32::from_le_bytes`: little-endian, the first byte is least
significant. -/
def from_le_bytes (a b c d : Nat) : Nat :=
  a + 256 * b + 65536 * c + 16777216 * d

/-- Embedding of `HelloInstruction::unpack` (`instruction.rs` lines
12-39): split off the tag byte (`InvalidInstructionData` if empty),
dispatch on it; tag 2 checks `rest.len() != 4`, then converts
`rest[..4]` into a 4-byte array and reads it little-endian.  Every error
branch returns `InvalidInstructionData`. -/
def HelloInstruction.unpack (input : List Nat) :
    Except ProgramErr HelloInstruction :=
  match split_first input with
  | none => .error .InvalidInstructionData
  | some (tag, rest) =>
    match tag with
    | 0 => .ok .Increment
    | 1 => .ok .Decrement
    | 2 =>
      if rest.length ≠ 4 then
        .error .InvalidInstructionData
      else
        match tryInto4 (rest.take 4) with
        | some (a, b, c, d) => .ok (.Set (from_le_bytes a b c d))
        | none => .error .InvalidInstructionData
    | _ => .error .InvalidInstructionData

/-- The account state of `lib.rs`: a single `u32` counter. -/
structure GreetingAccount where
  counter : Nat
  deriving DecidableEq, Repr

/-- The modulus of `u32` arithmetic, `2^32`. -/
def U32MOD : Nat := 4294967296

/-- borsh `GreetingAccount::try_from_slice`: a struct with a single `u32`
field deserializes from exactly 4 little-endian bytes; borsh fails both
when bytes are missing and when trailing bytes remain unconsumed. -/
def GreetingAccount.try_from_slice (data : List Nat) :
    Except ProgramErr GreetingAccount :=
  match data with
  | [a, b, c, d] => .ok ⟨from_le_bytes a b c d⟩
  | _ => .error .BorshIoError

/-- Rust `u32::to_le_bytes`: the 4 little-endian bytes of a `u32`. -/
def u32_to_le_bytes (v : Nat) : List Nat :=
  [v % 256, v / 256 % 256, v / 65536 % 256, v / 16777216 % 256]

/-- borsh `serialize(&mut &mut account.data.borrow_mut()[..])` (`lib.rs`
line 56): writes the 4 bytes of the counter at offset 0 of the region,
leaving any further bytes as they were; fails if the region is shorter
than 4 bytes. -/
def GreetingAccount.serialize_into (g : GreetingAccount)
    (data : List Nat) : Except ProgramErr (List Nat) :=
  if 4 ≤ data.length then
    .ok (u32_to_le_bytes g.counter ++ data.drop 4)
  else
    .error .BorshIoError

/-- The `match instructions` block of `lib.rs` lines 50-54.  `+=` and
`-=` on `u32` wrap modulo `2^32` under release-build semantics
(wrapping subtraction of 1 is addition of `2^32 - 1` modulo `2^32`);
`Set` stores the decoded value unconditionally. -/
def applyInstruction (i : HelloInstruction) (g : GreetingAccount) :
    GreetingAccount :=
  match i with
  | .Increment => ⟨(g.counter + 1) % U32MOD⟩
  | .Decrement => ⟨(g.counter + (U32MOD - 1)) % U32MOD⟩
  | .Set x => ⟨x⟩

/-- The fallible steps of `process_instruction`, in source order:
decode (line 30), owner check (line 42), state deserialization
(line 48), the counter transition (lines 50-54), reserialization
(line 56). -/
inductive Ev where
  | unpackEv
  | ownerCheckEv
  | deserEv
  | applyEv
  | serEv
  deriving DecidableEq, Repr

/-- Embedding of `process_instruction` (`lib.rs` lines 24-61) for an
invocation with one account present.  `ownerEq` is the result of the
external comparison `account.owner == program_id`; `instr` is
`instruction_data`; `data` is the account data region.  Returns the
program result, the region after the call (unchanged on every error
path), and the trace of steps executed, in source order: the source
calls `unpack` first (line 30) and checks the owner only afterwards
(line 42). -/
def process_instruction (ownerEq : Bool) (instr data : List Nat) :
    Except ProgramErr Unit × List Nat × List Ev :=
  match HelloInstruction.unpack instr with
  | .error e => (.error e, data, [.unpackEv])
  | .ok cmd =>
    if ownerEq then
      match GreetingAccount.try_from_slice data with
      | .error e => (.error e, data, [.unpackEv, .ownerCheckEv, .deserEv])
      | .ok g =>
        match (applyInstruction cmd g).serialize_into data with
        | .error e =>
          (.error e, data, [.unpackEv, .ownerCheckEv, .deserEv, .applyEv])
        | .ok d2 =>
          (.ok (), d2,
           [.unpackEv, .ownerCheckEv, .deserEv, .applyEv, .serEv])
    else
      (.error .IncorrectProgramId, data, [.unpackEv, .ownerCheckEv])

/-- The decode error taxonomy of the spec (section 7): `MissingTag` for
an empty buffer, `UnknownTag` for a tag outside `{0,1,2}`,
`MalformedPayload` for tag 2 with payload length ≠ 4. -/
inductive DecodeError where
  | MissingTag
  | UnknownTag
  | MalformedPayload
  deriving DecidableEq, Repr

/-- Modelled from the spec (section 4.1), for comparison with the source
decoder: dispatch on the tag byte, `Set` requires exactly 4 payload
bytes read little-endian, and each failure carries its own
`DecodeError`. -/
def decodeSpec (input : List Nat) : Except DecodeError HelloInstruction :=
  match input with
  | [] => .error .MissingTag
  | tag :: rest =>
    match tag with
    | 0 => .ok .Increment
    | 1 => .ok .Decrement
    | 2 =>
      match rest with
      | [a, b, c, d] => .ok (.Set (from_le_bytes a b c d))
      | _ => .error .MalformedPayload
    | _ => .error .UnknownTag

/-- Collapse the spec's decode error taxonomy to the single error value
the source uses. -/
def collapseErr (r : Except DecodeError HelloInstruction) :
    Except ProgramErr HelloInstruction :=
  match r with
  | .ok c => .ok c
  | .error _ => .error .InvalidInstructionData

/-- Helper: the source decoder agrees with the spec's decoder after
collapsing every spec error to `InvalidInstructionData`. -/
theorem unpack_eq_collapse :
    ∀ input : List Nat,
      HelloInstruction.unpack input = collapseErr (decodeSpec input)
  | [] => rfl
  | 0 :: _ => rfl
  | 1 :: _ => rfl
  | 2 :: [] => rfl
  | 2 :: [_] => rfl
  | 2 :: [_, _] => rfl
  | 2 :: [_, _, _] => rfl
  | 2 :: [_, _, _, _] => rfl
  | 2 :: a :: b :: c :: d :: x :: t => by
    simp [HelloInstruction.unpack, split_first, decodeSpec, collapseErr]
  | (_ + 3) :: _ => rfl

/-- Helper: successful borsh deserialization forces the region to have
exactly 4 bytes. -/
theorem try_from_slice_length :
    ∀ {data : List Nat} {g : GreetingAccount},
      GreetingAccount.try_from_slice data = .ok g → data.length = 4
  | [_, _, _, _], _, _ => rfl
  | [], _, h => Except.noConfusion h
  | [_], _, h => Except.noConfusion h
  | [_, _], _, h => Except.noConfusion h
  | [_, _, _], _, h => Except.noConfusion h
  | _ :: _ :: _ :: _ :: _ :: _, _, h => Except.noConfusion h

/-- Helper: a tag-2 buffer whose payload length is not 4 is rejected. -/
theorem unpack_two_len_ne (rest : List Nat) (h : rest.length ≠ 4) :
    HelloInstruction.unpack (2 :: rest) = .error .InvalidInstructionData := by
  simp [HelloInstruction.unpack, split_first, h]

/-- C1: the claim says decrement at counter 0 must fail with Underflow
and leave the state unchanged; the code instead performs native `u32`
subtraction, which wraps to the maximum value `4294967295` under
release-build semantics (debug builds panic; no Underflow error value
exists in the code).  This theorem evaluates the embedded program at the
failing input: owner matches, region holds counter 0, buffer `[1]`
(Decrement); the call succeeds and rewrites the region to the encoding
of `2^32 - 1`. -/
theorem decrement_at_zero_wraps_to_max :
    process_instruction true [1] [0, 0, 0, 0] =
      (.ok (), [255, 255, 255, 255],
       [.unpackEv, .ownerCheckEv, .deserEv, .applyEv, .serEv]) := rfl

/-- C2: the claim says increment at counter `2^32 - 1` must fail with
Overflow instead of silently wrapping to zero; the code instead performs
native `u32` addition, which wraps to 0 under release-build semantics
(debug builds panic; no Overflow error value exists in the code).  This
theorem evaluates the embedded program at the failing input: owner
matches, region holds counter `2^32 - 1`, buffer `[0]` (Increment); the
call succeeds and rewrites the region to the encoding of 0. -/
theorem increment_at_max_wraps_to_zero :
    process_instruction true [0] [255, 255, 255, 255] =
      (.ok (), [0, 0, 0, 0],
       [.unpackEv, .ownerCheckEv, .deserEv, .applyEv, .serEv]) := rfl

/-- C3: every invocation is atomic.  Either decode and deserialization
succeed, the transition is applied, and the call returns success with
the 4-byte region rewritten to the little-endian encoding of the new
counter; or the call returns an error and the region is byte-for-byte
the region passed in. -/
theorem process_atomic (ownerEq : Bool) (instr data : List Nat) :
    (∃ cmd g, HelloInstruction.unpack instr = .ok cmd ∧
        GreetingAccount.try_from_slice data = .ok g ∧
        process_instruction ownerEq instr data =
          (.ok (), u32_to_le_bytes (applyInstruction cmd g).counter,
           [.unpackEv, .ownerCheckEv, .deserEv, .applyEv, .serEv])) ∨
    (∃ e, (process_instruction ownerEq instr data).1 = .error e ∧
        (process_instruction ownerEq instr data).2.1 = data) := by
  rcases hu : HelloInstruction.unpack instr with e | cmd
  · refine Or.inr ⟨e, ?_, ?_⟩ <;> simp [process_instruction, hu]
  · cases ownerEq with
    | false =>
      refine Or.inr ⟨.IncorrectProgramId, ?_, ?_⟩ <;>
        simp [process_instruction, hu]
    | true =>
      rcases hd : GreetingAccount.try_from_slice data with e | g
      · refine Or.inr ⟨e, ?_, ?_⟩ <;> simp [process_instruction, hu, hd]
      · have hlen : data.length = 4 := try_from_slice_length hd
        have hser : (applyInstruction cmd g).serialize_into data =
            .ok (u32_to_le_bytes (applyInstruction cmd g).counter) := by
          unfold GreetingAccount.serialize_into
          rw [if_pos (by omega), ← hlen, List.drop_length, List.append_nil]
        exact Or.inl ⟨cmd, g, rfl, rfl, by
          simp [process_instruction, hu, hd, hser]⟩

/-- C4 counterexample: the claim says that whenever the account owner is
not the invoking program, the core does not execute decode and returns
an authorization failure, the authorization check coming first.  In the
code `unpack` runs first (line 30) and the owner check only afterwards
(line 42): with a mismatched owner and the empty buffer the call returns
the decode error `InvalidInstructionData` (not `IncorrectProgramId`)
with decode the only executed step, and with a mismatched owner and the
valid buffer `[0]` the trace records decode strictly before the owner
check. -/
theorem owner_check_after_unpack_cex :
    process_instruction false [] [0, 0, 0, 0] =
      (.error .InvalidInstructionData, [0, 0, 0, 0], [.unpackEv]) ∧
    (process_instruction false [0] [0, 0, 0, 0]).2.2 =
      [.unpackEv, .ownerCheckEv] ∧
    ProgramErr.InvalidInstructionData ≠ ProgramErr.IncorrectProgramId :=
  ⟨rfl, rfl, by decide⟩

/-- C4 amended: decode executes before the authorization check.  In
every invocation where the owner is not the invoking program and decode
succeeds, the core applies no transition, leaves the region unchanged,
and returns `IncorrectProgramId`; the executed steps are exactly decode
followed by the owner check. -/
theorem owner_mismatch_blocks_apply (instr data : List Nat)
    (cmd : HelloInstruction)
    (h : HelloInstruction.unpack instr = .ok cmd) :
    process_instruction false instr data =
      (.error .IncorrectProgramId, data, [.unpackEv, .ownerCheckEv]) := by
  simp [process_instruction, h]

/-- C4 witness: owner mismatch with the Increment buffer `[0]`. -/
theorem owner_mismatch_blocks_apply_w :
    process_instruction false [0] [0, 0, 0, 0] =
      (.error .IncorrectProgramId, [0, 0, 0, 0],
       [.unpackEv, .ownerCheckEv]) :=
  owner_mismatch_blocks_apply [0] [0, 0, 0, 0] .Increment rfl

/-- C5: a buffer starting with tag 0 decodes to Increment and one
starting with tag 1 decodes to Decrement, whatever the trailing bytes; a
buffer starting with tag 2 decodes successfully exactly when 4 payload
bytes follow, and then yields `Set` of their little-endian value. -/
theorem unpack_tag_behavior (rest : List Nat) :
    HelloInstruction.unpack (0 :: rest) = .ok .Increment ∧
    HelloInstruction.unpack (1 :: rest) = .ok .Decrement ∧
    ((∃ v, HelloInstruction.unpack (2 :: rest) = .ok (.Set v)) ↔
      rest.length = 4) ∧
    ∀ a b c d, rest = [a, b, c, d] →
      HelloInstruction.unpack (2 :: rest) =
        .ok (.Set (from_le_bytes a b c d)) := by
  refine ⟨rfl, rfl, ⟨?_, ?_⟩, ?_⟩
  · rintro ⟨v, hv⟩
    by_contra hlen
    rw [unpack_two_len_ne rest hlen] at hv
    exact Except.noConfusion hv
  · intro hlen
    rcases rest with _ | ⟨a, _ | ⟨b, _ | ⟨c, _ | ⟨d, _ | ⟨x, t⟩⟩⟩⟩⟩ <;>
      simp at hlen
    exact ⟨from_le_bytes a b c d, rfl⟩
  · rintro a b c d rfl
    rfl

/-- C5 witness: tag 2 with payload `[7,0,0,0]` decodes to `Set 7`, and
tag 0 with a trailing byte decodes to Increment. -/
theorem unpack_tag_behavior_w :
    HelloInstruction.unpack [2, 7, 0, 0, 0] = .ok (.Set 7) ∧
    HelloInstruction.unpack [0, 9] = .ok .Increment :=
  ⟨(unpack_tag_behavior [7, 0, 0, 0]).2.2.2 7 0 0 0 rfl,
   (unpack_tag_behavior [9]).1⟩

/-- C6 counterexample: the claim says decode classifies its failures as
MissingTag, UnknownTag and MalformedPayload; in the code the three
failure causes — empty input, unknown tag byte 9, tag 2 with a 3-byte
payload — all return one and the same error value, so no classification
is observable. -/
theorem decode_errors_not_classified_cex :
    HelloInstruction.unpack [] = HelloInstruction.unpack [9] ∧
    HelloInstruction.unpack [9] = HelloInstruction.unpack [2, 1, 2, 3] ∧
    HelloInstruction.unpack [] = .error .InvalidInstructionData :=
  ⟨rfl, rfl, rfl⟩

/-- C6 amended: decode fails on exactly the inputs the spec's taxonomy
describes — empty input (MissingTag case), first byte outside `{0,1,2}`
(UnknownTag case), first byte 2 with payload length ≠ 4
(MalformedPayload case) — and succeeds with the same command otherwise,
but every failure is reported as the single value
`InvalidInstructionData` rather than a distinct error per cause. -/
theorem unpack_is_collapsed_spec_decode (input : List Nat) :
    HelloInstruction.unpack input = collapseErr (decodeSpec input) :=
  unpack_eq_collapse input

/-- C7: the Set transition always succeeds and stores exactly the
decoded value, for every value and every prior state; in particular the
buffer `[2,100,0,0,0]` applied to the zeroed region rewrites it to the
encoding of 100. -/
theorem set_transition (v : Nat) (g : GreetingAccount) :
    applyInstruction (.Set v) g = ⟨v⟩ ∧
    process_instruction true [2, 100, 0, 0, 0] [0, 0, 0, 0] =
      (.ok (), [100, 0, 0, 0],
       [.unpackEv, .ownerCheckEv, .deserEv, .applyEv, .serEv]) :=
  ⟨rfl, rfl⟩

/-- C8: serializing any counter value below `2^32` to its 4-byte
little-endian region and deserializing the region reproduces the
value. -/
theorem counter_roundtrip (v : Nat) (h : v < U32MOD) :
    GreetingAccount.try_from_slice (u32_to_le_bytes v) = .ok ⟨v⟩ := by
  have h2 : v < 4294967296 := h
  simp only [GreetingAccount.try_from_slice, u32_to_le_bytes, from_le_bytes,
    Except.ok.injEq, GreetingAccount.mk.injEq]
  omega

/-- C8 witness: round trip at the maximum `u32` value. -/
theorem counter_roundtrip_w :
    GreetingAccount.try_from_slice (u32_to_le_bytes 4294967295) =
      .ok ⟨4294967295⟩ :=
  counter_roundtrip 4294967295 (by decide)

/-- C9: every decode failure carries the same error value
`InvalidInstructionData`; the result alone cannot distinguish the empty
input, an unknown tag and a malformed tag-2 payload. -/
theorem unpack_single_error_value (input : List Nat) (e : ProgramErr)
    (h : HelloInstruction.unpack input = .error e) :
    e = .InvalidInstructionData := by
  rw [unpack_eq_collapse] at h
  rcases hd : decodeSpec input with d | c
  · rw [hd] at h
    simp [collapseErr] at h
    exact h.symm
  · rw [hd] at h
    exact Except.noConfusion h

/-- C9 witness: the failure on the unknown tag 9. -/
theorem unpack_single_error_value_w :
    ProgramErr.InvalidInstructionData = ProgramErr.InvalidInstructionData :=
  unpack_single_error_value [9] ProgramErr.InvalidInstructionData rfl

/-- C10: when the tag is 2 and exactly 4 payload bytes remain, the
conversion of `rest[..4]` into a 4-byte array always succeeds, so the
error branch guarding it in `unpack` is unreachable under the length
check. -/
theorem tryInto4_total_of_len4 (rest : List Nat) (h : rest.length = 4) :
    ∃ a b c d, tryInto4 (rest.take 4) = some (a, b, c, d) := by
  rcases rest with _ | ⟨a, _ | ⟨b, _ | ⟨c, _ | ⟨d, _ | ⟨x, t⟩⟩⟩⟩⟩ <;>
    simp at h
  exact ⟨a, b, c, d, rfl⟩

/-- C10 witness: the conversion at the payload `[1,2,3,4]`. -/
theorem tryInto4_total_of_len4_w :
    ∃ a b c d, tryInto4 (([1, 2, 3, 4] : List Nat).take 4) =
      some (a, b, c, d) :=
  tryInto4_total_of_len4 [1, 2, 3, 4] rfl

end SolanaChangeNumber
